import Mathlib

/-!
Verification of the PatentsView downloader (src/functions.py).

The development shallowly embeds the three functions of the source file:

* `patentsview_query`   — one page of a PatentsView query (HTTP POST + retry loop);
* `get_patentsview_data` — probe for the total count, then append all pages;
* `patentsvsiew_query_to_dfs` — the entry point: fetch, then flatten the nested
  JSON records into a mapping of table name to DataFrame (name kept as in the
  source, including its typo).

JSON values are modelled by `JsonVal`; machine I/O is modelled by a `Transport`
function from the request parameters to the (already parsed) HTTP response, and
Python exceptions by the `PyError` type threaded through `Except`.
-/

set_option autoImplicit false

/-- A parsed JSON value, as produced by request.json() in the source. -/
inductive JsonVal where
  | null : JsonVal
  | str : String → JsonVal
  | num : Int → JsonVal
  | arr : List JsonVal → JsonVal
  | obj : List (String × JsonVal) → JsonVal

/-- A record: one JSON object, a finite map from field names to values.
Used both for raw patent records and for DataFrame rows. -/
abbrev Rec := List (String × JsonVal)

/-- Reading a field of a record; a missing field reads as null (pandas NaN). -/
def cell (r : Rec) (c : String) : JsonVal :=
  (List.lookup c r).getD .null

/-- The Python exceptions that the embedded code can raise. -/
inductive PyError where
  | nameError (n : String)
  | keyboardInterrupt
  | assertionError (msg : String)
  | typeError (msg : String)
  | keyError (k : String)
  | attributeError (msg : String)
  | valueError (msg : String)
  | nonTermination
  deriving DecidableEq, Repr

/-- One HTTP response: status code plus the parsed JSON body.  On non-success
paths the body is never read by the source, so carrying a parsed value is
harmless. -/
structure HttpResponse where
  status : Nat
  body : JsonVal

/-- One POST request to the patents endpoint, as determined by its payload:
the field list and the pagination options.  The date range is fixed by the
Transport (see below). -/
structure PageReq where
  fields : List String
  page : Nat
  per_page : Nat
  deriving DecidableEq, Repr

/-- The HTTP layer: a function from the request payload to the response.  A
`Transport` value corresponds to one server and one fixed date range, so the
date-string parameters of the Python functions are absorbed into it. -/
def Transport := List String → Nat → Nat → HttpResponse

/-- The observable outcome of `patentsview_query`: the returned JSON (or the
exception raised), the list of POST requests issued, and the list of
time.sleep durations performed. -/
structure QueryTrace where
  result : Except PyError JsonVal
  requests : List PageReq
  sleeps : List Nat

/-- Embedding of `patentsview_query` (src/functions.py lines 7-52).

The source enters a `while retry` loop: it POSTs, and on status 200 exits the
loop and returns `request.json()`.  On any non-200 status the first statement
of the else-branch is

  print('Error {}, reason: {}'.format(r.status_code, r.reason))

but the response variable is named `request`; no binding named `r` exists in
the function or at module scope, so evaluating the format arguments raises
NameError before the retry branch (`time.sleep` / `continue`) or the
interactive prompt (`input` / `raise KeyboardInterrupt`) can run.  The loop
therefore executes at most one iteration: exactly one request is issued, no
sleep is performed, and no operator input is consumed.  `force_retry`,
`time_retry` and the operator-input stream are kept in the signature to match
the source but are unreachable. -/
def patentsview_query (t : Transport) (fields : List String) (page per_page : Nat)
    (force_retry : Bool) (time_retry : Nat) (operatorInput : List String) : QueryTrace :=
  let resp := t fields page per_page
  if resp.status = 200 then
    { result := .ok resp.body, requests := [⟨fields, page, per_page⟩], sleeps := [] }
  else
    { result := .error (.nameError "r"), requests := [⟨fields, page, per_page⟩], sleeps := [] }

/-- Python subscription `v[k]` on a parsed JSON value: KeyError when the key is
absent from an object, TypeError when the value is not an object. -/
def jsonGetKey (v : JsonVal) (k : String) : Except PyError JsonVal :=
  match v with
  | .obj kvs =>
    match List.lookup k kvs with
    | some x => .ok x
    | none => .error (.keyError k)
  | _ => .error (.typeError "value is not subscriptable")

/-- The observable outcome of `get_patentsview_data`: the aggregated list of
patent records (or the exception raised), the requests issued by the initial
probe query, and the page-fetch requests issued by the pagination loop. -/
structure FetchTrace where
  result : Except PyError (List JsonVal)
  probeRequests : List PageReq
  pageRequests : List PageReq

/-- The pagination loop of `get_patentsview_data` (lines 87-96):

  while no_patents < count:
      query = patentsview_query(fields, ..., page, per_page, ...)
      data['patents'].extend(query['patents'])
      no_patents += per_page
      page += 1

`fuel` bounds the number of iterations so the definition is total; the caller
passes enough fuel for every terminating run (the loop fails to terminate in
Python only when per_page = 0, which the fuel-exhaustion marker
`PyError.nonTermination` represents).  The second component of the result is
the list of requests issued by the loop. -/
def fetch_loop (t : Transport) (fields : List String) (per_page : Nat)
    (force_retry : Bool) (time_retry : Nat) (operatorInput : List String) (count : Int) :
    Nat → Nat → Nat → List JsonVal → Except PyError (List JsonVal) × List PageReq
  | fuel, no_patents, page, acc =>
    if (no_patents : Int) < count then
      match fuel with
      | 0 => (.error .nonTermination, [])
      | fuel' + 1 =>
        let q := patentsview_query t fields page per_page force_retry time_retry operatorInput
        match q.result with
        | .error e => (.error e, q.requests)
        | .ok body =>
          match jsonGetKey body "patents" with
          | .error e => (.error e, q.requests)
          | .ok v =>
            match v with
            | .arr l =>
              let rest := fetch_loop t fields per_page force_retry time_retry operatorInput count
                fuel' (no_patents + per_page) (page + 1) (acc ++ l)
              (rest.1, q.requests ++ rest.2)
            | _ => (.error (.typeError "patents value is not a list"), q.requests)
    else
      (.ok acc, [])

/-- Embedding of `get_patentsview_data` (lines 55-97): issue the initial probe
query (field list ['patent_number'], page 1, per_page 25), read
total_patent_count from it, assert that it is below 100000, then run the
pagination loop.  The comparison `count < 100000` requires a numeric count;
a non-numeric JSON value would raise TypeError in Python 3. -/
def get_patentsview_data (t : Transport) (fields : List String) (per_page : Nat)
    (force_retry : Bool) (time_retry : Nat) (operatorInput : List String) : FetchTrace :=
  let probe := patentsview_query t ["patent_number"] 1 25 force_retry time_retry operatorInput
  match probe.result with
  | .error e => { result := .error e, probeRequests := probe.requests, pageRequests := [] }
  | .ok body =>
    match jsonGetKey body "total_patent_count" with
    | .error e => { result := .error e, probeRequests := probe.requests, pageRequests := [] }
    | .ok v =>
      match v with
      | .num count =>
        if count < 100000 then
          let run := fetch_loop t fields per_page force_retry time_retry operatorInput count
            (count.toNat + 1) 0 1 []
          { result := run.1, probeRequests := probe.requests, pageRequests := run.2 }
        else
          { result := .error (.assertionError "Results count must be less than 100000"),
            probeRequests := probe.requests, pageRequests := [] }
      | _ =>
        { result := .error (.typeError "comparison of non-numeric count"),
          probeRequests := probe.requests, pageRequests := [] }

/-- A consistent paginated server holding a fixed list of patent records for
the (implicit) date range: every response reports the same total count and
page p carries the records with zero-based indices [(p-1)*per_page, p*per_page). -/
def mkTransport (allPatents : List JsonVal) : Transport :=
  fun _fields page per_page =>
    { status := 200,
      body := .obj
        [("total_patent_count", .num (allPatents.length : Int)),
         ("patents", .arr ((allPatents.drop ((page - 1) * per_page)).take per_page))] }

/-- A server whose every response is HTTP 500 (body never read on that path). -/
def transport500 : Transport := fun _ _ _ => { status := 500, body := .null }

/-! ## The DataFrame layer

`patentsvsiew_query_to_dfs` reshapes the record list with pandas.  The pandas
operations the source uses are embedded below over a minimal DataFrame model:
a column list plus one association list per row; a cell absent from a row
reads as null (NaN). -/

/-- A pandas DataFrame: its columns, and one record per row. -/
structure DataFrame where
  cols : List String
  rows : List Rec

/-- Deduplicate a list keeping the first occurrence of each element not in
`seen`, in order. -/
def firstUnionAux (seen : List String) : List String → List String
  | [] => []
  | x :: xs =>
    if seen.contains x then firstUnionAux seen xs
    else x :: firstUnionAux (x :: seen) xs

/-- Deduplicate a list keeping the first occurrence of each element, as the
column union of `pd.DataFrame(list_of_dicts)` does for the record keys. -/
def firstUnion (l : List String) : List String := firstUnionAux [] l

/-- `pd.DataFrame(records)`: columns are the union of the record keys in order
of first appearance; each record becomes one row. -/
def pdDataFrame (records : List Rec) : DataFrame :=
  { cols := firstUnion (records.flatMap (fun r => r.map (fun p => p.1))), rows := records }

/-- Column selection `df[sel]`: KeyError when a requested column is absent;
otherwise each row is restricted to exactly the selected columns. -/
def DataFrame.select (df : DataFrame) (sel : List String) : Except PyError DataFrame :=
  if sel.all (fun c => df.cols.contains c) then
    .ok { cols := sel, rows := df.rows.map (fun r => sel.map (fun c => (c, cell r c))) }
  else
    .error (.keyError "columns not in index")

/-- `Series.explode` on one cell value, per the pandas contract: a list with n
elements becomes n rows, an empty list becomes a single NaN row, and scalars
(including NaN) are returned unchanged as a single row. -/
def explodeVal : JsonVal → List JsonVal
  | .arr [] => [.null]
  | .arr l => l
  | v => [v]

/-- Overwrite one field of a row (the exploded column receives the element). -/
def setCell (r : Rec) (c : String) (v : JsonVal) : Rec :=
  r.map (fun p => if p.1 = c then (c, v) else p)

/-- `df.explode(c)` followed by `reset_index(drop=True)`: every row is
replicated once per element of its list in column c. -/
def DataFrame.explode (df : DataFrame) (c : String) : DataFrame :=
  { cols := df.cols,
    rows := df.rows.flatMap (fun r => (explodeVal (cell r c)).map (fun v => setCell r c v)) }

/-- One entry of an object handed to json_normalize: a directly nested object
is flattened into dotted column names; other values are kept under their key.
Objects nested deeper are kept as opaque values: the patent endpoint returns
flat objects inside its nested fields, and no claim below depends on column
names produced by deeper flattening (only on row counts, identifiers and the
top-level keys). -/
def flattenKV1 : String × JsonVal → List (String × JsonVal)
  | (k, JsonVal.obj kvs) => kvs.map (fun p => (k ++ "." ++ p.1, p.2))
  | (k, v) => [(k, v)]

/-- The flattened keys of one object handed to json_normalize. -/
def flattenKVs (l : List (String × JsonVal)) : List (String × JsonVal) :=
  l.flatMap flattenKV1

/-- One step of json_normalize input validation: every entry must be a JSON
object (pandas raises AttributeError on a NaN or other non-dict entry while
inspecting its values). -/
def asObj : JsonVal → Option Rec
  | .obj kvs => some kvs
  | _ => none

/-- Check and flatten all entries handed to json_normalize. -/
def normalizeVals : List JsonVal → Option (List Rec)
  | [] => some []
  | v :: rest =>
    match asObj v, normalizeVals rest with
    | some kvs, some out => some (flattenKVs kvs :: out)
    | _, _ => none

/-- `pd.json_normalize(values)`: one output row per input object, with nested
keys flattened to dotted names; fails with AttributeError when an entry is not
an object (in particular on the NaN produced by exploding an empty or missing
sequence). -/
def json_normalize (vals : List JsonVal) : Except PyError DataFrame :=
  match normalizeVals vals with
  | some recs =>
    .ok { cols := firstUnion (recs.flatMap (fun r => r.map (fun p => p.1))), rows := recs }
  | none => .error (.attributeError "entry of json_normalize is not a dict")

/-- `df1.join(df2)` on two default-indexed frames of equal length: fails when
the column sets overlap (no suffix is specified in the source), otherwise
pairs the rows positionally and concatenates them.  In this pipeline the two
frames always have equal length: json_normalize produces exactly one record
per exploded row. -/
def DataFrame.join (df1 df2 : DataFrame) : Except PyError DataFrame :=
  if df1.cols.any (fun c => df2.cols.contains c) then
    .error (.valueError "columns overlap but no suffix specified")
  else
    .ok { cols := df1.cols ++ df2.cols,
          rows := List.zipWith (fun a b => a ++ b) df1.rows df2.rows }

/-- `df.drop(columns=c)`: KeyError when the column is absent (the default
errors behaviour), otherwise the column is removed from every row. -/
def DataFrame.drop (df : DataFrame) (c : String) : Except PyError DataFrame :=
  if df.cols.contains c then
    .ok { cols := df.cols.filter (fun x => x != c),
          rows := df.rows.map (fun r => r.filter (fun p => p.1 != c)) }
  else
    .error (.keyError c)

/-- The columns excluded from the parent table (line 130 of the source). -/
def parentExclude : List String :=
  ["inventors", "rawinventors", "assignees", "applications", "IPCs",
   "application_citations", "cited_patents", "citedby_patents", "uspcs", "cpcs",
   "nbers", "wipos", "gov_interests", "lawyers", "examiners", "foreign_priority",
   "pct_data"]

/-- The one-to-many categories, in the order the explode loop visits them
(line 131 of the source). -/
def explodeOrder : List String :=
  ["gov_interests", "inventors", "rawinventors", "assignees", "IPCs",
   "application_citations", "cited_patents", "citedby_patents", "uspcs", "cpcs",
   "wipos", "lawyers", "examiners", "foreign_priority", "pct_data"]

/-- The one-to-one categories (line 132 of the source). -/
def otherOrder : List String := ["applications", "nbers"]

/-- Body of the loop over `other` categories (lines 134-138):

  dfs[cat] = df[['patent_number', cat]]
  dfs[cat] = dfs[cat].join(pd.json_normalize(dfs[cat].explode())).drop(columns=cat)

`DataFrame.explode` requires its column argument; the source calls it with
none, so after the selection succeeds the call raises TypeError and the drop
of app_id below it is unreachable. -/
def processOtherCat (df : DataFrame) (cat : String) : Except PyError DataFrame :=
  match df.select ["patent_number", cat] with
  | .error e => .error e
  | .ok _sel =>
    .error (.typeError "explode missing 1 required positional argument: column")

/-- Body of the loop over `explode` categories (lines 139-144): select the
identifier and the category, explode, json_normalize the exploded column,
join, drop the raw column, and for inventors/assignees unconditionally drop
the per-category key column `cat[:-1] + "_key_id"`. -/
def processExplodeCat (df : DataFrame) (cat : String) : Except PyError DataFrame :=
  match df.select ["patent_number", cat] with
  | .error e => .error e
  | .ok sel =>
    match json_normalize ((sel.explode cat).rows.map (fun r => cell r cat)) with
    | .error e => .error e
    | .ok norm =>
      match (sel.explode cat).join norm with
      | .error e => .error e
      | .ok joined =>
        match joined.drop cat with
        | .error e => .error e
        | .ok dropped =>
          if cat = "inventors" ∨ cat = "assignees" then
            dropped.drop ((cat.dropRight 1) ++ "_key_id")
          else
            .ok dropped

/-- Run one of the category loops over its category list, collecting the
resulting tables in order; the first exception aborts the call. -/
def processCats (df : DataFrame) (f : DataFrame → String → Except PyError DataFrame) :
    List String → Except PyError (List (String × DataFrame))
  | [] => .ok []
  | c :: rest =>
    match f df c with
    | .error e => .error e
    | .ok t =>
      match processCats df f rest with
      | .error e => .error e
      | .ok ts => .ok ((c, t) :: ts)

/-- The transform half of `patentsvsiew_query_to_dfs` (lines 129-145): build
the DataFrame of all records, split the columns into parent fields, `other`
(one-to-one) categories and `explode` (one-to-many) categories, and build the
table for each; the result maps "patent" to the parent table and each present
category to its own table. -/
def query_to_dfs_transform (patents : List Rec) : Except PyError (List (String × DataFrame)) :=
  let df := pdDataFrame patents
  let patents_field_list := df.cols.filter (fun c => !(parentExclude.contains c))
  let explodeCats := explodeOrder.filter (fun c => df.cols.contains c)
  let otherCats := otherOrder.filter (fun c => df.cols.contains c)
  match df.select patents_field_list with
  | .error e => .error e
  | .ok parent =>
    match processCats df processOtherCat otherCats with
    | .error e => .error e
    | .ok otherTables =>
      match processCats df processExplodeCat explodeCats with
      | .error e => .error e
      | .ok explodeTables =>
        .ok (("patent", parent) :: (otherTables ++ explodeTables))

/-- A patent record as handed to pd.DataFrame: the JSON objects of the
response array (the API only ever returns objects there). -/
def toRec : JsonVal → Rec
  | .obj kvs => kvs
  | _ => []

/-- The observable outcome of the entry point: the table mapping (or the
exception raised), the field list after the call (the source appends
'patent_number' to the caller's list in place when absent), and the requests
issued. -/
structure PipelineResult where
  dfs : Except PyError (List (String × DataFrame))
  fieldsAfter : List String
  probeRequests : List PageReq
  pageRequests : List PageReq

/-- Embedding of `patentsvsiew_query_to_dfs` (lines 100-145): append
'patent_number' to the caller's field list when missing, fetch everything via
`get_patentsview_data`, then run the DataFrame transform. -/
def patentsvsiew_query_to_dfs (t : Transport) (fields : List String) (per_page : Nat)
    (force_retry : Bool) (time_retry : Nat) (operatorInput : List String) : PipelineResult :=
  let fields2 := if fields.contains "patent_number" then fields else fields ++ ["patent_number"]
  let ft := get_patentsview_data t fields2 per_page force_retry time_retry operatorInput
  match ft.result with
  | .error e =>
    { dfs := .error e, fieldsAfter := fields2,
      probeRequests := ft.probeRequests, pageRequests := ft.pageRequests }
  | .ok patents =>
    { dfs := query_to_dfs_transform (patents.map toRec), fieldsAfter := fields2,
      probeRequests := ft.probeRequests, pageRequests := ft.pageRequests }

/-! ## Helper lemmas -/

theorem lookup_mem {β : Type} {k : String} {v : β} : ∀ {r : List (String × β)},
    List.lookup k r = some v → (k, v) ∈ r
  | [], h => by simp [List.lookup] at h
  | (a, b) :: rest, h => by
    by_cases hka : k = a
    · subst hka
      simp [List.lookup] at h
      simp [h]
    · have hne : (k == a) = false := beq_false_of_ne hka
      rw [List.lookup, hne] at h
      exact List.mem_cons_of_mem _ (lookup_mem h)

theorem cell_mem_of_ne_null {r : Rec} {c : String} (h : cell r c ≠ .null) :
    (c, cell r c) ∈ r := by
  cases hl : List.lookup c r with
  | none => exact absurd (by rw [cell, hl]; rfl) h
  | some v =>
    have hc : cell r c = v := by rw [cell, hl]; rfl
    rw [hc]
    exact lookup_mem hl

theorem firstUnionAux_mem (a : String) : ∀ (l seen : List String),
    a ∈ firstUnionAux seen l ↔ a ∈ l ∧ a ∉ seen
  | [], seen => by simp [firstUnionAux]
  | x :: xs, seen => by
    rw [firstUnionAux]
    by_cases hx : seen.contains x
    · rw [if_pos hx]
      rw [firstUnionAux_mem a xs seen]
      constructor
      · rintro ⟨h1, h2⟩; exact ⟨List.mem_cons_of_mem _ h1, h2⟩
      · rintro ⟨h1, h2⟩
        rcases List.mem_cons.1 h1 with h | h
        · subst h; exact absurd (List.elem_iff.1 hx) h2
        · exact ⟨h, h2⟩
    · rw [if_neg hx]
      simp only [List.mem_cons]
      rw [firstUnionAux_mem a xs (x :: seen)]
      constructor
      · rintro (h | ⟨h1, h2⟩)
        · subst h
          refine ⟨Or.inl rfl, fun hs => hx (List.elem_iff.2 hs)⟩
        · simp only [List.mem_cons, not_or] at h2
          exact ⟨Or.inr h1, h2.2⟩
      · rintro ⟨h1 | h1, h2⟩
        · exact Or.inl h1
        · by_cases hax : a = x
          · exact Or.inl hax
          · exact Or.inr ⟨h1, by simp [List.mem_cons, hax, h2]⟩

theorem firstUnion_mem {a : String} {l : List String} : a ∈ firstUnion l ↔ a ∈ l := by
  rw [firstUnion, firstUnionAux_mem]
  simp

theorem pdDataFrame_rows (records : List Rec) : (pdDataFrame records).rows = records := rfl

theorem mem_cols_pdDataFrame {c : String} {records : List Rec} :
    c ∈ (pdDataFrame records).cols ↔ ∃ r ∈ records, ∃ v, (c, v) ∈ r := by
  rw [pdDataFrame]
  simp only [firstUnion_mem, List.mem_flatMap, List.mem_map]
  constructor
  · rintro ⟨r, hr, ⟨k, v⟩, hkv, hk⟩
    exact ⟨r, hr, v, hk ▸ hkv⟩
  · rintro ⟨r, hr, v, hv⟩
    exact ⟨r, hr, (c, v), hv, rfl⟩

theorem cell_null_of_not_mem_cols {c : String} {records : List Rec} {r : Rec}
    (hc : c ∉ (pdDataFrame records).cols) (hr : r ∈ records) : cell r c = .null := by
  by_contra hne
  exact hc (mem_cols_pdDataFrame.2 ⟨r, hr, cell r c, cell_mem_of_ne_null hne⟩)

theorem lookup_map_sel (k : String) (g : String → JsonVal) : ∀ (sel : List String),
    List.lookup k (sel.map (fun c => (c, g c))) = if k ∈ sel then some (g k) else none
  | [] => by simp [List.lookup]
  | c :: cs => by
    simp only [List.map_cons, List.lookup]
    by_cases hk : k = c
    · subst hk
      simp [List.mem_cons]
    · have hne : (k == c) = false := beq_false_of_ne hk
      rw [hne]
      rw [lookup_map_sel k g cs]
      simp [List.mem_cons, hk]

theorem cell_map_sel_of_mem {k : String} {g : String → JsonVal} {sel : List String}
    (h : k ∈ sel) : cell (sel.map (fun c => (c, g c))) k = g k := by
  rw [cell, lookup_map_sel, if_pos h, Option.getD]

theorem cell_map_sel_of_not_mem {k : String} {g : String → JsonVal} {sel : List String}
    (h : k ∉ sel) : cell (sel.map (fun c => (c, g c))) k = .null := by
  rw [cell, lookup_map_sel, if_neg h, Option.getD]

theorem lookup_filter_ne {k c : String} (hkc : k ≠ c) : ∀ (r : Rec),
    List.lookup k (r.filter (fun p => p.1 != c)) = List.lookup k r
  | [] => rfl
  | (a, b) :: rest => by
    by_cases hac : a = c
    · subst hac
      have h1 : ((a, b).1 != a) = false := by simp
      have h2 : (k == a) = false := beq_false_of_ne hkc
      simp only [List.filter_cons, h1, Bool.false_eq_true, if_false, List.lookup, h2,
        lookup_filter_ne hkc rest]
    · have h1 : ((a, b).1 != c) = true := by simp [hac]
      simp only [List.filter_cons, h1, if_true, List.lookup]
      cases k == a
      · exact lookup_filter_ne hkc rest
      · rfl

theorem cell_filter_ne {k c : String} (r : Rec) (hkc : k ≠ c) :
    cell (r.filter (fun p => p.1 != c)) k = cell r k := by
  rw [cell, cell, lookup_filter_ne hkc]

/-! ## The pagination loop against a consistent server -/

/-- The number of page requests a complete count-driven run issues: the
ceiling of count / per_page. -/
def ceilPages (C P : Nat) : Nat := (C + P - 1) / P

theorem ceilPages_le_iff {C P k : Nat} (hP : 1 ≤ P) : ceilPages C P ≤ k ↔ C ≤ k * P := by
  rw [ceilPages, Nat.div_le_iff_le_mul_add_pred hP, Nat.mul_comm k P]
  generalize P * k = X
  omega

theorem query_mkTransport (all : List JsonVal) (fields : List String) (page P : Nat)
    (fr : Bool) (tr : Nat) (op : List String) :
    patentsview_query (mkTransport all) fields page P fr tr op =
      { result := .ok (.obj
          [("total_patent_count", .num (all.length : Int)),
           ("patents", .arr ((all.drop ((page - 1) * P)).take P))]),
        requests := [⟨fields, page, P⟩], sleeps := [] } := rfl

theorem jsonGetKey_count_body (n : Int) (l : List JsonVal) :
    jsonGetKey (.obj [("total_patent_count", .num n), ("patents", .arr l)])
      "total_patent_count" = .ok (.num n) := rfl

theorem jsonGetKey_patents_body (n : Int) (l : List JsonVal) :
    jsonGetKey (.obj [("total_patent_count", .num n), ("patents", .arr l)])
      "patents" = .ok (.arr l) := rfl

theorem fetch_loop_mkTransport (all : List JsonVal) (fields : List String) (P : Nat)
    (hP : 1 ≤ P) (fr : Bool) (tr : Nat) (op : List String) :
    ∀ (fuel k : Nat), ceilPages all.length P - k ≤ fuel →
      fetch_loop (mkTransport all) fields P fr tr op (all.length : Int) fuel (k * P) (k + 1)
          (all.take (k * P)) =
        (.ok all,
         (List.range (ceilPages all.length P - k)).map (fun i => ⟨fields, k + 1 + i, P⟩)) := by
  intro fuel
  induction fuel with
  | zero =>
    intro k hk
    have hck : ceilPages all.length P ≤ k := by omega
    have hle : all.length ≤ k * P := (ceilPages_le_iff hP).1 hck
    rw [fetch_loop, if_neg (by exact_mod_cast Nat.not_lt.2 hle)]
    rw [List.take_of_length_le hle, Nat.sub_eq_zero_of_le hck]
    rfl
  | succ fuel ih =>
    intro k hk
    by_cases hkP : k * P < all.length
    · have hcond : ((k * P : Nat) : Int) < (all.length : Int) := by exact_mod_cast hkP
      rw [fetch_loop, if_pos hcond]
      simp only [query_mkTransport, jsonGetKey_patents_body]
      have hacc : all.take (k * P) ++ (all.drop ((k + 1 - 1) * P)).take P
          = all.take ((k + 1) * P) := by
        have h11 : (k + 1 - 1) * P = k * P := rfl
        rw [h11, ← List.take_add, Nat.succ_mul]
      rw [hacc]
      have hfuel : ceilPages all.length P - (k + 1) ≤ fuel := by
        have hlt : k < ceilPages all.length P := by
          by_contra hcon
          exact absurd ((ceilPages_le_iff hP).1 (Nat.not_lt.1 hcon)) (Nat.not_le.2 hkP)
        omega
      have hrec := ih (k + 1) hfuel
      rw [show k * P + P = (k + 1) * P from (Nat.succ_mul k P).symm]
      rw [show k + 1 + 1 = (k + 1) + 1 from rfl]
      rw [hrec]
      have hlt : k < ceilPages all.length P := by
        by_contra hcon
        exact absurd ((ceilPages_le_iff hP).1 (Nat.not_lt.1 hcon)) (Nat.not_le.2 hkP)
      have hm : ceilPages all.length P - k = (ceilPages all.length P - (k + 1)) + 1 := by
        omega
      have hmap : ∀ m : Nat, (List.range (m + 1)).map
            (fun i => ({ fields := fields, page := k + 1 + i, per_page := P } : PageReq))
          = ({ fields := fields, page := k + 1, per_page := P } : PageReq) ::
            (List.range m).map
              (fun i => ({ fields := fields, page := k + 1 + 1 + i, per_page := P } : PageReq)) := by
        intro m
        rw [List.range_succ_eq_map, List.map_cons, List.map_map]
        refine congrArg₂ List.cons rfl ?_
        refine List.map_congr_left ?_
        intro i _
        show PageReq.mk fields (k + 1 + (i + 1)) P = PageReq.mk fields (k + 1 + 1 + i) P
        refine congrArg (fun n => PageReq.mk fields n P) ?_
        omega
      rw [hm, hmap (ceilPages all.length P - (k + 1))]
      rfl
    · have hle : all.length ≤ k * P := Nat.not_lt.1 hkP
      have hck : ceilPages all.length P ≤ k := (ceilPages_le_iff hP).2 hle
      rw [fetch_loop, if_neg (by exact_mod_cast Nat.not_lt.2 hle)]
      rw [List.take_of_length_le hle, Nat.sub_eq_zero_of_le hck]
      rfl

/-! ## Claims about the fetcher -/

/-- Claim C1: for every date range whose probed total count C is below the
safety ceiling and every (positive) page size P, `get_patentsview_data`
against a consistent paginated server returns an aggregated result set with
exactly the C records (here: exactly the server's record list, in order), and
issues exactly ceil(C / P) page requests beyond the initial probe, with pages
requested in increasing order starting at page 1. -/
theorem get_patentsview_data_complete (all : List JsonVal) (fields : List String) (P : Nat)
    (fr : Bool) (tr : Nat) (op : List String)
    (hC : all.length < 100000) (hP : 1 ≤ P) :
    (get_patentsview_data (mkTransport all) fields P fr tr op).result = .ok all ∧
    (get_patentsview_data (mkTransport all) fields P fr tr op).pageRequests
      = (List.range (ceilPages all.length P)).map
          (fun i => { fields := fields, page := 1 + i, per_page := P }) ∧
    (get_patentsview_data (mkTransport all) fields P fr tr op).pageRequests.length
      = ceilPages all.length P := by
  have hfuel : ceilPages all.length P - 0 ≤ all.length + 1 := by
    have hle : ceilPages all.length P ≤ all.length + 1 := by
      refine (ceilPages_le_iff hP).2 ?_
      calc all.length ≤ all.length + 1 := Nat.le_succ _
        _ = (all.length + 1) * 1 := (Nat.mul_one _).symm
        _ ≤ (all.length + 1) * P := Nat.mul_le_mul_left _ hP
    omega
  have hloop := fetch_loop_mkTransport all fields P hP fr tr op (all.length + 1) 0 hfuel
  rw [Nat.zero_mul] at hloop
  simp only [List.take_zero, Nat.sub_zero, Nat.zero_add] at hloop
  simp only [get_patentsview_data, query_mkTransport, jsonGetKey_count_body]
  rw [if_pos (show ((all.length : Nat) : Int) < 100000 by exact_mod_cast hC)]
  simp only [Int.toNat_natCast]
  rw [hloop]
  refine ⟨rfl, rfl, ?_⟩
  simp

/-- Witness for C1 at a concrete server of three records and page size two. -/
def all3 : List JsonVal :=
  [.obj [("patent_number", .str "1")], .obj [("patent_number", .str "2")],
   .obj [("patent_number", .str "3")]]

theorem get_patentsview_data_complete_witness :
    all3.length < 100000 ∧ 1 ≤ 2 ∧
    (get_patentsview_data (mkTransport all3) ["patent_title"] 2 false 1 []).result = .ok all3 ∧
    (get_patentsview_data (mkTransport all3) ["patent_title"] 2 false 1 []).pageRequests.length
      = ceilPages all3.length 2 :=
  ⟨by decide, by decide,
   (get_patentsview_data_complete all3 ["patent_title"] 2 false 1 [] (by decide) (by decide)).1,
   (get_patentsview_data_complete all3 ["patent_title"] 2 false 1 [] (by decide) (by decide)).2.2⟩

/-- Claim C2 (code evidence): a page request that receives HTTP 500 while the
automatic-retry flag is set does not wait and does not reissue the request:
the fetcher raises NameError for the undefined variable r (the error print
references `r` although the response is bound to `request`), so exactly one
request is issued and no sleep is performed. -/
theorem patentsview_query_500_no_retry :
    patentsview_query transport500 ["patent_number"] 1 25 true 1 []
      = { result := .error (.nameError "r"),
          requests := [{ fields := ["patent_number"], page := 1, per_page := 25 }],
          sleeps := [] } := rfl

/-- Claim C4: for every probed total count at or above the safety ceiling
100000, `get_patentsview_data` fails with the AssertionError of the
`assert count < 100000` statement before fetching any page: zero page
requests are issued, only the probe. -/
theorem get_patentsview_data_too_large (t : Transport) (fields : List String) (P : Nat)
    (fr : Bool) (tr : Nat) (op : List String) (c : Int)
    (h200 : (t ["patent_number"] 1 25).status = 200)
    (hbody : jsonGetKey (t ["patent_number"] 1 25).body "total_patent_count" = .ok (.num c))
    (hc : 100000 ≤ c) :
    (get_patentsview_data t fields P fr tr op).result
        = .error (.assertionError "Results count must be less than 100000") ∧
    (get_patentsview_data t fields P fr tr op).pageRequests = [] := by
  have hq : patentsview_query t ["patent_number"] 1 25 fr tr op =
      { result := .ok (t ["patent_number"] 1 25).body,
        requests := [⟨["patent_number"], 1, 25⟩], sleeps := [] } := by
    rw [patentsview_query, if_pos h200]
  simp only [get_patentsview_data, hq, hbody]
  rw [if_neg (by omega : ¬(c < 100000))]
  exact ⟨rfl, rfl⟩

/-- Witness for C4: a server probing at count 150000. -/
def transportBig : Transport := fun _ _ _ =>
  { status := 200, body := .obj [("total_patent_count", .num 150000), ("patents", .arr [])] }

theorem get_patentsview_data_too_large_witness :
    (transportBig ["patent_number"] 1 25).status = 200 ∧
    (100000 : Int) ≤ 150000 ∧
    (get_patentsview_data transportBig ["patent_title"] 100 false 1 []).result
        = .error (.assertionError "Results count must be less than 100000") ∧
    (get_patentsview_data transportBig ["patent_title"] 100 false 1 []).pageRequests = [] :=
  ⟨rfl, by decide,
   (get_patentsview_data_too_large transportBig ["patent_title"] 100 false 1 [] 150000
      rfl rfl (by decide)).1,
   (get_patentsview_data_too_large transportBig ["patent_title"] 100 false 1 [] 150000
      rfl rfl (by decide)).2⟩

/-- Claim C5 (code evidence): under a non-automatic retry policy a failed page
request never reaches the interactive prompt: the NameError for the undefined
variable r is raised first, so answering n can never happen and the
KeyboardInterrupt (the UserAborted condition) is never raised. -/
theorem patentsview_query_500_no_abort :
    (patentsview_query transport500 ["patent_number"] 1 25 false 1 ["n"]).result
        = .error (.nameError "r") ∧
    (patentsview_query transport500 ["patent_number"] 1 25 false 1 ["n"]).result
        ≠ .error .keyboardInterrupt := by
  refine ⟨rfl, ?_⟩
  intro h
  rw [show (patentsview_query transport500 ["patent_number"] 1 25 false 1 ["n"]).result
      = .error (.nameError "r") from rfl] at h
  exact PyError.noConfusion (Except.error.inj h)

/-- Claim C7 (amended): the caller's field list is returned unchanged exactly
when it already contains patent_number; otherwise the call appends
patent_number to it. -/
theorem fields_unchanged_when_has_patent_number (t : Transport) (fields : List String)
    (P : Nat) (fr : Bool) (tr : Nat) (op : List String)
    (h : fields.contains "patent_number" = true) :
    (patentsvsiew_query_to_dfs t fields P fr tr op).fieldsAfter = fields := by
  simp only [patentsvsiew_query_to_dfs]
  rw [if_pos h]
  cases hft : (get_patentsview_data t fields P fr tr op).result <;> rfl

theorem fields_unchanged_witness :
    (["patent_number", "patent_title"] : List String).contains "patent_number" = true ∧
    (patentsvsiew_query_to_dfs (mkTransport []) ["patent_number", "patent_title"]
        25 false 1 []).fieldsAfter = ["patent_number", "patent_title"] :=
  ⟨by decide,
   fields_unchanged_when_has_patent_number (mkTransport []) _ 25 false 1 [] (by decide)⟩

/-- Claim C7 counterexample: a field list without patent_number is mutated by
the call; afterwards it no longer holds the same elements. -/
theorem fields_mutated_counterexample :
    (patentsvsiew_query_to_dfs (mkTransport []) ["patent_title"] 25 false 1 []).fieldsAfter
      ≠ ["patent_title"] := by decide

/-- Claim C9: when the probed total count is zero, the entry point issues no
page requests after the probe and returns a table mapping holding only the
parent table under the key patent, with zero rows and zero columns. -/
theorem query_to_dfs_zero_count (t : Transport) (fields : List String) (P : Nat)
    (fr : Bool) (tr : Nat) (op : List String)
    (h200 : (t ["patent_number"] 1 25).status = 200)
    (hbody : jsonGetKey (t ["patent_number"] 1 25).body "total_patent_count" = .ok (.num 0)) :
    (patentsvsiew_query_to_dfs t fields P fr tr op).pageRequests = [] ∧
    (patentsvsiew_query_to_dfs t fields P fr tr op).dfs
      = .ok [("patent", { cols := [], rows := [] })] := by
  have hq : patentsview_query t ["patent_number"] 1 25 fr tr op =
      { result := .ok (t ["patent_number"] 1 25).body,
        requests := [⟨["patent_number"], 1, 25⟩], sleeps := [] } := by
    rw [patentsview_query, if_pos h200]
  simp only [patentsvsiew_query_to_dfs, get_patentsview_data, hq, hbody]
  rw [if_pos (by decide : (0 : Int) < 100000)]
  exact ⟨rfl, rfl⟩

theorem query_to_dfs_zero_count_witness :
    (mkTransport [] ["patent_number"] 1 25).status = 200 ∧
    (patentsvsiew_query_to_dfs (mkTransport []) ["patent_title"] 25 false 1 []).pageRequests = [] ∧
    (patentsvsiew_query_to_dfs (mkTransport []) ["patent_title"] 25 false 1 []).dfs
      = .ok [("patent", { cols := [], rows := [] })] :=
  ⟨rfl,
   (query_to_dfs_zero_count (mkTransport []) ["patent_title"] 25 false 1 [] rfl rfl).1,
   (query_to_dfs_zero_count (mkTransport []) ["patent_title"] 25 false 1 [] rfl rfl).2⟩

/-! ## Helper lemmas for the flattener -/

theorem flatMap_congr {α β : Type} {l : List α} {f g : α → List β}
    (h : ∀ a ∈ l, f a = g a) : l.flatMap f = l.flatMap g := by
  induction l with
  | nil => rfl
  | cons x xs ih =>
    rw [List.flatMap_cons, List.flatMap_cons, h x (List.mem_cons_self x xs),
      ih (fun a ha => h a (List.mem_cons_of_mem _ ha))]

theorem countP_flatMap {α β : Type} (p : β → Bool) : ∀ (l : List α) (f : α → List β),
    (l.flatMap f).countP p = (l.map (fun a => (f a).countP p)).sum
  | [], _ => rfl
  | x :: xs, f => by
    rw [List.flatMap_cons, List.countP_append, List.map_cons, List.sum_cons,
      countP_flatMap p xs f]

theorem countP_const_map {α β : Type} (g : β → Bool) (x : β) : ∀ (l : List α),
    (l.map (fun _ => x)).countP g = if g x then l.length else 0
  | [] => by cases hg : g x <;> simp [hg]
  | a :: as => by
    rw [List.map_cons, List.countP_cons, countP_const_map g x as]
    cases hg : g x <;> simp [hg]

theorem map_zipWith_append {α : Type} (h : Rec → α) : ∀ (a b : List Rec),
    (∀ x ∈ a, ∀ y, h (x ++ y) = h x) → a.length = b.length →
    (List.zipWith (fun r s => r ++ s) a b).map h = a.map h
  | [], [], _, _ => rfl
  | [], _ :: _, _, hlen => by simp at hlen
  | _ :: _, [], _, hlen => by simp at hlen
  | x :: xs, y :: ys, hpt, hlen => by
    rw [List.zipWith_cons_cons, List.map_cons, List.map_cons,
      hpt x (List.mem_cons_self x xs) y,
      map_zipWith_append h xs ys (fun u hu => hpt u (List.mem_cons_of_mem _ hu))
        (by simpa using hlen)]

theorem normalizeVals_length : ∀ {vals : List JsonVal} {recs : List Rec},
    normalizeVals vals = some recs → recs.length = vals.length
  | [], recs, h => by
    rw [normalizeVals] at h
    cases h
    rfl
  | v :: rest, recs, h => by
    rw [normalizeVals] at h
    cases hv : asObj v with
    | none => rw [hv] at h; exact absurd h (by simp)
    | some kvs =>
      rw [hv] at h
      cases hr : normalizeVals rest with
      | none => rw [hr] at h; exact absurd h (by simp)
      | some out =>
        rw [hr] at h
        cases h
        rw [List.length_cons, List.length_cons, normalizeVals_length hr]

/-- Does a JSON value equal the string s. -/
def strEq : JsonVal → String → Bool
  | .str t, s => t == s
  | _, _ => false

/-- Does the patent_number cell of a row hold exactly the string s. -/
def pidIsStr (r : Rec) (s : String) : Bool := strEq (cell r "patent_number") s

theorem explodeOrder_ne_pn : ∀ c ∈ explodeOrder, c ≠ "patent_number" := by decide

theorem select_ok_elim {df : DataFrame} {sel : List String} {out : DataFrame}
    (h : df.select sel = .ok out) :
    out = { cols := sel, rows := df.rows.map (fun r => sel.map (fun c => (c, cell r c))) }
      ∧ ∀ c ∈ sel, c ∈ df.cols := by
  rw [DataFrame.select] at h
  by_cases hall : (sel.all (fun c => df.cols.contains c)) = true
  · rw [if_pos hall] at h
    refine ⟨(Except.ok.inj h).symm, ?_⟩
    intro c hc
    exact List.elem_iff.1 (List.all_eq_true.1 hall c hc)
  · rw [if_neg hall] at h
    exact absurd h (by simp)

theorem select_ok_of_subset {df : DataFrame} {sel : List String}
    (h : ∀ c ∈ sel, c ∈ df.cols) :
    df.select sel
      = .ok { cols := sel, rows := df.rows.map (fun r => sel.map (fun c => (c, cell r c))) } := by
  rw [DataFrame.select, if_pos]
  exact List.all_eq_true.2 (fun c hc => List.elem_iff.2 (h c hc))

theorem drop_ok_elim {df : DataFrame} {c : String} {out : DataFrame}
    (h : df.drop c = .ok out) :
    out.cols = df.cols.filter (fun x => x != c)
      ∧ out.rows = df.rows.map (fun r => r.filter (fun p => p.1 != c)) := by
  rw [DataFrame.drop] at h
  by_cases hc : (df.cols.contains c) = true
  · rw [if_pos hc] at h
    cases Except.ok.inj h
    exact ⟨rfl, rfl⟩
  · rw [if_neg hc] at h
    exact absurd h (by simp)

theorem join_ok_elim {df1 df2 : DataFrame} {out : DataFrame}
    (h : df1.join df2 = .ok out) :
    out.rows = List.zipWith (fun r s => r ++ s) df1.rows df2.rows := by
  rw [DataFrame.join] at h
  by_cases hc : (df1.cols.any (fun c => df2.cols.contains c)) = true
  · rw [if_pos hc] at h
    exact absurd h (by simp)
  · rw [if_neg hc] at h
    cases Except.ok.inj h
    rfl

theorem json_normalize_ok_elim {vals : List JsonVal} {out : DataFrame}
    (h : json_normalize vals = .ok out) : out.rows.length = vals.length := by
  rw [json_normalize] at h
  cases hv : normalizeVals vals with
  | none => rw [hv] at h; exact absurd h (by simp)
  | some recs =>
    rw [hv] at h
    cases Except.ok.inj h
    exact (normalizeVals_length hv).trans (by simp)

/-! ## Structure of the explode-category tables -/

theorem cell_pair_pn (x v : JsonVal) (cat : String) :
    cell [("patent_number", x), (cat, v)] "patent_number" = x := rfl

theorem cell_pair_pn_append (x v : JsonVal) (cat : String) (y : Rec) :
    cell ([("patent_number", x), (cat, v)] ++ y) "patent_number" = x := rfl

theorem cell_pair_cat {cat : String} (hcat : cat ≠ "patent_number") (x v : JsonVal) :
    cell [("patent_number", x), (cat, v)] cat = v := by
  simp [cell, List.lookup, beq_false_of_ne hcat]

theorem setCell_pair {cat : String} (hcat : cat ≠ "patent_number") (x v w : JsonVal) :
    setCell [("patent_number", x), (cat, v)] cat w = [("patent_number", x), (cat, w)] := by
  have h1 : ¬("patent_number" = cat) := fun h => hcat h.symm
  simp [setCell, h1]

theorem explode_sel_rows (patents : List Rec) {cat : String} (hcat : cat ≠ "patent_number") :
    (DataFrame.explode
        { cols := ["patent_number", cat],
          rows := patents.map (fun q => ["patent_number", cat].map (fun c => (c, cell q c))) }
        cat).rows
      = patents.flatMap (fun q => (explodeVal (cell q cat)).map
          (fun v => [("patent_number", cell q "patent_number"), (cat, v)])) := by
  rw [DataFrame.explode]
  show (patents.map (fun q => ["patent_number", cat].map (fun c => (c, cell q c)))).flatMap
      (fun r => (explodeVal (cell r cat)).map (fun v => setCell r cat v)) = _
  rw [List.flatMap_map]
  refine flatMap_congr ?_
  intro q _
  have hrow : ["patent_number", cat].map (fun c => (c, cell q c))
      = [("patent_number", cell q "patent_number"), (cat, cell q cat)] := rfl
  rw [hrow, cell_pair_cat hcat]
  refine List.map_congr_left ?_
  intro v _
  exact setCell_pair hcat _ _ _

theorem processOtherCat_not_ok {df : DataFrame} {c : String} {T : DataFrame}
    (h : processOtherCat df c = .ok T) : False := by
  rw [processOtherCat] at h
  cases hsel : df.select ["patent_number", c] with
  | error e => rw [hsel] at h; exact Except.noConfusion h
  | ok s => rw [hsel] at h; exact Except.noConfusion h

theorem processCats_mem {df : DataFrame} {f : DataFrame → String → Except PyError DataFrame} :
    ∀ {cats : List String} {tabs : List (String × DataFrame)},
      processCats df f cats = .ok tabs → ∀ {c : String} {T : DataFrame},
      (c, T) ∈ tabs → c ∈ cats ∧ f df c = .ok T
  | [], tabs, hok, c, T, hmem => by
    rw [processCats] at hok
    cases hok
    exact absurd hmem (by simp)
  | c0 :: rest, tabs, hok, c, T, hmem => by
    rw [processCats] at hok
    cases hf : f df c0 with
    | error e => rw [hf] at hok; exact absurd hok (by simp)
    | ok t0 =>
      rw [hf] at hok
      cases hrest : processCats df f rest with
      | error e => rw [hrest] at hok; exact absurd hok (by simp)
      | ok ts =>
        rw [hrest] at hok
        cases hok
        rcases List.mem_cons.1 hmem with heq | hmem2
        · cases heq
          exact ⟨List.mem_cons_self _ _, hf⟩
        · have := processCats_mem hrest hmem2
          exact ⟨List.mem_cons_of_mem _ this.1, this.2⟩

theorem processCats_ok_of_not_ok {df : DataFrame}
    {f : DataFrame → String → Except PyError DataFrame}
    (hnever : ∀ c T, f df c = .ok T → False) :
    ∀ {cats : List String} {tabs : List (String × DataFrame)},
      processCats df f cats = .ok tabs → tabs = []
  | [], tabs, hok => by
    rw [processCats] at hok
    cases hok
    rfl
  | c0 :: rest, tabs, hok => by
    rw [processCats] at hok
    cases hf : f df c0 with
    | error e => rw [hf] at hok; exact absurd hok (by simp)
    | ok t0 => exact absurd hf (by intro h; exact hnever c0 t0 h)

theorem map_flatMap_eq {α β γ : Type} (g : β → γ) (f : α → List β) : ∀ (l : List α),
    (l.flatMap f).map g = l.flatMap (fun a => (f a).map g)
  | [] => rfl
  | x :: xs => by
    rw [List.flatMap_cons, List.flatMap_cons, List.map_append, map_flatMap_eq g f xs]


/-- The patent_number column of an explode-category table, as a list running
over the table's rows: each source patent contributes one copy of its own
patent_number cell per element of its exploded sequence. -/
theorem processExplodeCat_pid_map {patents : List Rec} {cat : String} {T : DataFrame}
    (hcat : cat ≠ "patent_number")
    (hok : processExplodeCat (pdDataFrame patents) cat = .ok T) :
    T.rows.map (fun r => cell r "patent_number")
      = patents.flatMap (fun q => (explodeVal (cell q cat)).map
          (fun _ => cell q "patent_number")) := by
  rw [processExplodeCat] at hok
  cases hsel : (pdDataFrame patents).select ["patent_number", cat] with
  | error e => rw [hsel] at hok; exact Except.noConfusion hok
  | ok sel =>
    simp only [hsel] at hok
    have hselval := (select_ok_elim hsel).1
    rw [pdDataFrame_rows] at hselval
    have hexrows : (sel.explode cat).rows
        = patents.flatMap (fun q => (explodeVal (cell q cat)).map
            (fun v => [("patent_number", cell q "patent_number"), (cat, v)])) := by
      rw [hselval]
      exact explode_sel_rows patents hcat
    cases hnorm : json_normalize ((sel.explode cat).rows.map (fun r => cell r cat)) with
    | error e => simp only [hnorm] at hok; exact Except.noConfusion hok
    | ok norm =>
      simp only [hnorm] at hok
      cases hjoin : (sel.explode cat).join norm with
      | error e => simp only [hjoin] at hok; exact Except.noConfusion hok
      | ok joined =>
        simp only [hjoin] at hok
        cases hdrop : joined.drop cat with
        | error e => simp only [hdrop] at hok; exact Except.noConfusion hok
        | ok dropped =>
          simp only [hdrop] at hok
          have hexlen : norm.rows.length = (sel.explode cat).rows.length := by
            rw [json_normalize_ok_elim hnorm, List.length_map]
          have hjr : joined.rows.map (fun r => cell r "patent_number")
              = (sel.explode cat).rows.map (fun r => cell r "patent_number") := by
            rw [join_ok_elim hjoin]
            refine map_zipWith_append _ _ _ ?_ hexlen.symm
            intro x hx y
            rw [hexrows] at hx
            rcases List.mem_flatMap.1 hx with ⟨q, hq, hxin⟩
            rcases List.mem_map.1 hxin with ⟨v, hv, hveq⟩
            rw [← hveq, cell_pair_pn_append, cell_pair_pn]
          have hdr : dropped.rows.map (fun r => cell r "patent_number")
              = joined.rows.map (fun r => cell r "patent_number") := by
            rw [(drop_ok_elim hdrop).2, List.map_map]
            refine List.map_congr_left ?_
            intro r _
            exact cell_filter_ne r (Ne.symm hcat)
          by_cases hinvc : cat = "inventors" ∨ cat = "assignees"
          · rw [if_pos hinvc] at hok
            have hkeyne : "patent_number" ≠ (cat.dropRight 1 ++ "_key_id") := by
              rcases hinvc with h | h <;> subst h <;> decide
            have hTr : T.rows.map (fun r => cell r "patent_number")
                = dropped.rows.map (fun r => cell r "patent_number") := by
              rw [(drop_ok_elim hok).2, List.map_map]
              refine List.map_congr_left ?_
              intro r _
              exact cell_filter_ne r hkeyne
            rw [hTr, hdr, hjr, hexrows, map_flatMap_eq]
            refine flatMap_congr ?_
            intro q _
            rw [List.map_map]
            rfl
          · rw [if_neg hinvc] at hok
            cases Except.ok.inj hok
            rw [hdr, hjr, hexrows, map_flatMap_eq]
            refine flatMap_congr ?_
            intro q _
            rw [List.map_map]
            rfl

theorem transform_ok_elim {patents : List Rec} {tables : List (String × DataFrame)}
    (hok : query_to_dfs_transform patents = .ok tables) :
    ∃ parent explodeTables,
      (pdDataFrame patents).select
          ((pdDataFrame patents).cols.filter (fun c => !(parentExclude.contains c)))
        = .ok parent ∧
      processCats (pdDataFrame patents) processExplodeCat
          (explodeOrder.filter (fun c => (pdDataFrame patents).cols.contains c))
        = .ok explodeTables ∧
      tables = ("patent", parent) :: explodeTables := by
  simp only [query_to_dfs_transform] at hok
  cases hpar : (pdDataFrame patents).select
      ((pdDataFrame patents).cols.filter (fun c => !(parentExclude.contains c))) with
  | error e => simp only [hpar] at hok; exact Except.noConfusion hok
  | ok parent =>
    simp only [hpar] at hok
    cases hoth : processCats (pdDataFrame patents) processOtherCat
        (otherOrder.filter (fun c => (pdDataFrame patents).cols.contains c)) with
    | error e => simp only [hoth] at hok; exact Except.noConfusion hok
    | ok otherTables =>
      simp only [hoth] at hok
      cases hexp : processCats (pdDataFrame patents) processExplodeCat
          (explodeOrder.filter (fun c => (pdDataFrame patents).cols.contains c)) with
      | error e => simp only [hexp] at hok; exact Except.noConfusion hok
      | ok explodeTables =>
        simp only [hexp] at hok
        have hempty : otherTables = [] :=
          processCats_ok_of_not_ok (fun c T h => processOtherCat_not_ok h) hoth
        subst hempty
        have htab : tables = ("patent", parent) :: explodeTables := (Except.ok.inj hok).symm
        exact ⟨parent, explodeTables, rfl, rfl, htab⟩

theorem parent_pid_map {patents : List Rec} {parent : DataFrame}
    (hsel : (pdDataFrame patents).select
        ((pdDataFrame patents).cols.filter (fun c => !(parentExclude.contains c)))
      = .ok parent) :
    parent.rows.map (fun r => cell r "patent_number")
      = patents.map (fun q => cell q "patent_number") := by
  have hval := (select_ok_elim hsel).1
  rw [hval]
  show (((pdDataFrame patents).rows.map
      (fun r => ((pdDataFrame patents).cols.filter
        (fun c => !(parentExclude.contains c))).map (fun c => (c, cell r c)))).map
      (fun r => cell r "patent_number")) = _
  rw [pdDataFrame_rows, List.map_map]
  refine List.map_congr_left ?_
  intro q hq
  show cell (((pdDataFrame patents).cols.filter
      (fun c => !(parentExclude.contains c))).map (fun c => (c, cell q c))) "patent_number"
    = cell q "patent_number"
  by_cases hpn : "patent_number"
      ∈ (pdDataFrame patents).cols.filter (fun c => !(parentExclude.contains c))
  · exact cell_map_sel_of_mem hpn
  · rw [cell_map_sel_of_not_mem hpn]
    have hpnex : "patent_number" ∉ (pdDataFrame patents).cols := by
      intro hc
      exact hpn (List.mem_filter.2 ⟨hc, by decide⟩)
    exact (cell_null_of_not_mem_cols hpnex hq).symm

/-- Claim C8: referential integrity of the table mapping: every value in the
patent_number column of every returned table (the child tables in particular)
also appears in the patent_number column of the parent table. -/
theorem referential_integrity (patents : List Rec) (tables : List (String × DataFrame))
    (P T : DataFrame) (cat : String) (r : Rec)
    (hok : query_to_dfs_transform patents = .ok tables)
    (hP : List.lookup "patent" tables = some P)
    (hT : (cat, T) ∈ tables)
    (hr : r ∈ T.rows) :
    cell r "patent_number" ∈ P.rows.map (fun pr => cell pr "patent_number") := by
  obtain ⟨parent, expTabs, hpar, hexp, htabs⟩ := transform_ok_elim hok
  subst htabs
  have hPparent : parent = P := by
    simp [List.lookup] at hP
    exact hP
  subst hPparent
  rcases List.mem_cons.1 hT with hhead | htail
  · cases hhead
    exact List.mem_map_of_mem _ hr
  · have hmem := processCats_mem hexp htail
    have hcatmem : cat ∈ explodeOrder := (List.mem_filter.1 hmem.1).1
    have hcatpn : cat ≠ "patent_number" := explodeOrder_ne_pn cat hcatmem
    have hpidmap := processExplodeCat_pid_map hcatpn hmem.2
    have hrin : cell r "patent_number" ∈ T.rows.map (fun rr => cell rr "patent_number") :=
      List.mem_map_of_mem _ hr
    rw [hpidmap] at hrin
    rcases List.mem_flatMap.1 hrin with ⟨q, hq, hqin⟩
    rcases List.mem_map.1 hqin with ⟨v, _hv, hveq⟩
    rw [← hveq, parent_pid_map hpar]
    exact List.mem_map_of_mem _ hq

/-! ## Concrete data for witnesses and counterexamples -/

def inv1 : JsonVal := .obj [("inventor_key_id", .str "k1"), ("inventor_first_name", .str "Ann")]
def inv2 : JsonVal := .obj [("inventor_key_id", .str "k2"), ("inventor_first_name", .str "Bob")]
def inv3 : JsonVal := .obj [("inventor_key_id", .str "k3"), ("inventor_first_name", .str "Cal")]

def pat1 : Rec := [("patent_number", .str "1"), ("inventors", .arr [inv1, inv2])]
def pat2 : Rec := [("patent_number", .str "2"), ("inventors", .arr [inv3])]
def pats3 : List Rec := [pat1, pat2]

/-- The tables the transform produces on `pats3` (it succeeds there). -/
def tabs3 : List (String × DataFrame) :=
  match query_to_dfs_transform pats3 with
  | .ok ts => ts
  | .error _ => []

def parent3 : DataFrame := (List.lookup "patent" tabs3).getD { cols := [], rows := [] }
def inventors3 : DataFrame := (List.lookup "inventors" tabs3).getD { cols := [], rows := [] }
def invRow3 : Rec := inventors3.rows.headD []

theorem referential_integrity_witness :
    cell invRow3 "patent_number" ∈ parent3.rows.map (fun pr => cell pr "patent_number") :=
  referential_integrity pats3 tabs3 parent3 inventors3 "inventors" invRow3 rfl rfl
    (List.mem_cons_of_mem _ (List.mem_cons_self _ _)) (List.mem_cons_self _ _)

/-- Claim C3 (amended): when the explode-category table for a one-to-many
field is successfully built, the number of its rows carrying a given patent's
identifier equals the length of that patent's nested sequence (success forces
every patent's sequence to be a nonempty list of objects); a patent missing
the field, or holding an empty sequence, while another patent has it, makes
the transform raise AttributeError instead of contributing zero rows — see
the counterexample theorem. -/
theorem explode_cardinality (pre post : List Rec) (p : Rec) (cat : String) (T : DataFrame)
    (s : String) (l : List JsonVal)
    (hcat : cat ∈ explodeOrder)
    (hok : processExplodeCat (pdDataFrame (pre ++ p :: post)) cat = .ok T)
    (hpid : cell p "patent_number" = .str s)
    (hl : cell p cat = .arr l) (hl0 : l ≠ [])
    (hothers : ∀ q ∈ pre ++ post, pidIsStr q s = false) :
    T.rows.countP (fun r => pidIsStr r s) = l.length := by
  have hcatpn : cat ≠ "patent_number" := explodeOrder_ne_pn cat hcat
  have hmap := processExplodeCat_pid_map hcatpn hok
  have h1 : T.rows.countP (fun r => pidIsStr r s)
      = (T.rows.map (fun r => cell r "patent_number")).countP (fun v => strEq v s) := by
    rw [List.countP_map]
    rfl
  rw [h1, hmap, countP_flatMap, List.map_append, List.map_cons, List.sum_append,
    List.sum_cons]
  have hside : ∀ q ∈ pre ++ post, ((explodeVal (cell q cat)).map
      (fun _ => cell q "patent_number")).countP (fun v => strEq v s) = 0 := by
    intro q hq
    rw [countP_const_map]
    have hz : strEq (cell q "patent_number") s = false := hothers q hq
    rw [hz]
    rfl
  have hpre : ((pre.map (fun q => ((explodeVal (cell q cat)).map
      (fun _ => cell q "patent_number")).countP (fun v => strEq v s)))).sum = 0 := by
    refine List.sum_eq_zero ?_
    intro x hx
    rcases List.mem_map.1 hx with ⟨q, hq, hxeq⟩
    rw [← hxeq]
    exact hside q (List.mem_append_left _ hq)
  have hpost : ((post.map (fun q => ((explodeVal (cell q cat)).map
      (fun _ => cell q "patent_number")).countP (fun v => strEq v s)))).sum = 0 := by
    refine List.sum_eq_zero ?_
    intro x hx
    rcases List.mem_map.1 hx with ⟨q, hq, hxeq⟩
    rw [← hxeq]
    exact hside q (List.mem_append_right _ hq)
  have hp : ((explodeVal (cell p cat)).map (fun _ => cell p "patent_number")).countP
      (fun v => strEq v s) = l.length := by
    rw [countP_const_map, hpid]
    have htrue : strEq (.str s) s = true := by simp [strEq]
    rw [htrue, if_pos rfl, hl]
    cases l with
    | nil => exact absurd rfl hl0
    | cons a as => rfl
  rw [hpre, hpost, hp]
  omega

/-- The inventors table the explode loop produces on `pats3`. -/
def T3 : DataFrame :=
  match processExplodeCat (pdDataFrame pats3) "inventors" with
  | .ok d => d
  | .error _ => { cols := [], rows := [] }

theorem explode_cardinality_witness :
    T3.rows.countP (fun r => pidIsStr r "1") = 2 :=
  explode_cardinality [] [pat2] pat1 "inventors" T3 "1" [inv1, inv2]
    (by decide) rfl rfl rfl (by simp) (by decide)

def patsMissing : List Rec :=
  [[("patent_number", .str "1"), ("inventors", .arr [inv1])],
   [("patent_number", .str "2")]]

/-- Claim C3 counterexample: a patent missing the requested one-to-many field
inventors (while another patent has it) does not yield zero child rows in an
inventors table — the transform fails outright: exploding the missing cell
produces a NaN and json_normalize raises AttributeError on it. -/
theorem explode_missing_field_counterexample :
    query_to_dfs_transform patsMissing
      = .error (.attributeError "entry of json_normalize is not a dict") := rfl

def patsApp : List Rec :=
  [[("patent_number", .str "1"),
    ("applications", .obj [("app_id", .str "a"), ("app_date", .str "d")])]]

/-- Claim C6 counterexample: on a result set with the one-to-one field
applications the flattener returns no table mapping at all — in particular no
parent table with merged application columns: the call raises TypeError. -/
theorem one_to_one_counterexample :
    query_to_dfs_transform patsApp
      = .error (.typeError "explode missing 1 required positional argument: column") := rfl

/-- Claim C6 (amended): one-to-one nested fields are not merged into the
parent table: applications is excluded from the parent field list, and the
code instead starts a separate table for it whose construction fails with
TypeError (DataFrame.explode called without its required column argument), so
the transform raises whenever such a field is present. -/
theorem one_to_one_not_merged (patents : List Rec)
    (hpn : "patent_number" ∈ (pdDataFrame patents).cols)
    (happ : "applications" ∈ (pdDataFrame patents).cols) :
    "applications" ∉ ((pdDataFrame patents).cols.filter (fun c => !(parentExclude.contains c)))
    ∧ query_to_dfs_transform patents
      = .error (.typeError "explode missing 1 required positional argument: column") := by
  constructor
  · intro hmem
    exact absurd (List.mem_filter.1 hmem).2 (by decide)
  · have hsubsel : ∀ c ∈ ["patent_number", "applications"],
        c ∈ (pdDataFrame patents).cols := by
      intro c hc
      rcases List.mem_cons.1 hc with h | h
      · subst h; exact hpn
      · rcases List.mem_cons.1 h with h2 | h2
        · subst h2; exact happ
        · exact absurd h2 (by simp)
    have herr : processOtherCat (pdDataFrame patents) "applications"
        = .error (.typeError "explode missing 1 required positional argument: column") := by
      rw [processOtherCat, select_ok_of_subset hsubsel]
    have hfilter : otherOrder.filter (fun c => (pdDataFrame patents).cols.contains c)
        = "applications"
          :: List.filter (fun c => (pdDataFrame patents).cols.contains c) ["nbers"] := by
      rw [otherOrder, List.filter_cons, if_pos (List.elem_iff.2 happ)]
    have hcats : processCats (pdDataFrame patents) processOtherCat
        (otherOrder.filter (fun c => (pdDataFrame patents).cols.contains c))
        = .error (.typeError "explode missing 1 required positional argument: column") := by
      rw [hfilter, processCats, herr]
    have hparsel := @select_ok_of_subset (pdDataFrame patents)
      ((pdDataFrame patents).cols.filter (fun c => !(parentExclude.contains c)))
      (fun c hc => (List.mem_filter.1 hc).1)
    simp only [query_to_dfs_transform, hparsel, hcats]

theorem one_to_one_not_merged_witness :
    "applications"
      ∉ ((pdDataFrame patsApp).cols.filter (fun c => !(parentExclude.contains c)))
    ∧ query_to_dfs_transform patsApp
      = .error (.typeError "explode missing 1 required positional argument: column") :=
  one_to_one_not_merged patsApp (by decide) (by decide)

theorem not_mem_filter_bne_self (c : String) (l : List String) :
    c ∉ l.filter (fun x => x != c) := by
  intro h
  have hcc := (List.mem_filter.1 h).2
  simp at hcc

/-- An explode-category table that went through the key-dropping branch
(inventors or assignees) never carries its per-category key column
cat[:-1] + "_key_id". -/
theorem processExplodeCat_key_removed {df T : DataFrame} {cat : String}
    (hcat : cat = "inventors" ∨ cat = "assignees")
    (hok : processExplodeCat df cat = .ok T) :
    (cat.dropRight 1 ++ "_key_id") ∉ T.cols := by
  rw [processExplodeCat] at hok
  cases hsel : df.select ["patent_number", cat] with
  | error e => rw [hsel] at hok; exact Except.noConfusion hok
  | ok sel =>
    simp only [hsel] at hok
    cases hnorm : json_normalize ((sel.explode cat).rows.map (fun r => cell r cat)) with
    | error e => simp only [hnorm] at hok; exact Except.noConfusion hok
    | ok norm =>
      simp only [hnorm] at hok
      cases hjoin : (sel.explode cat).join norm with
      | error e => simp only [hjoin] at hok; exact Except.noConfusion hok
      | ok joined =>
        simp only [hjoin] at hok
        cases hdrop : joined.drop cat with
        | error e => simp only [hdrop] at hok; exact Except.noConfusion hok
        | ok dropped =>
          simp only [hdrop] at hok
          rw [if_pos hcat] at hok
          rw [(drop_ok_elim hok).1]
          exact not_mem_filter_bne_self _ _

/-- The key-dropping branch raises KeyError when the per-category key column
is absent from the table built so far (all steps before the drop given as
succeeding). -/
theorem processExplodeCat_key_absent_error {df sel norm joined dropped : DataFrame}
    {cat : String}
    (hcat : cat = "inventors" ∨ cat = "assignees")
    (hsel : df.select ["patent_number", cat] = .ok sel)
    (hnorm : json_normalize ((sel.explode cat).rows.map (fun r => cell r cat)) = .ok norm)
    (hjoin : (sel.explode cat).join norm = .ok joined)
    (hdrop : joined.drop cat = .ok dropped)
    (hnokey : (cat.dropRight 1 ++ "_key_id") ∉ dropped.cols) :
    processExplodeCat df cat = .error (.keyError (cat.dropRight 1 ++ "_key_id")) := by
  rw [processExplodeCat]
  simp only [hsel, hnorm, hjoin, hdrop]
  rw [if_pos hcat, DataFrame.drop,
    if_neg (fun hcon => hnokey (List.elem_iff.1 hcon))]

/-- The key-column removal lifted to the whole transform: an inventors or
assignees table in a returned table mapping lacks its key column. -/
theorem transform_table_key_removed {patents : List Rec}
    {tables : List (String × DataFrame)} {T : DataFrame} {cat : String}
    (hcat : cat = "inventors" ∨ cat = "assignees")
    (hok : query_to_dfs_transform patents = .ok tables)
    (hl : List.lookup cat tables = some T) :
    (cat.dropRight 1 ++ "_key_id") ∉ T.cols := by
  obtain ⟨parent, expTabs, _hpar, hexp, htabs⟩ := transform_ok_elim hok
  subst htabs
  simp only [List.lookup] at hl
  have hne : (cat == "patent") = false := by
    rcases hcat with h | h <;> subst h <;> decide
  rw [hne] at hl
  exact processExplodeCat_key_removed hcat (processCats_mem hexp (lookup_mem hl)).2

/-- Claim C10: a returned inventors table never carries the column
inventor_key_id, and a returned assignees table never carries the column
assignee_key_id; the removal is unconditional for both categories, so when
the respective column is absent from the flattened records (all steps before
the drop succeeding) the transform raises KeyError instead of returning
tables. -/
theorem key_id_columns_dropped :
    (∀ (patents : List Rec) (tables : List (String × DataFrame)) (T : DataFrame),
      query_to_dfs_transform patents = .ok tables →
      List.lookup "inventors" tables = some T →
      "inventor_key_id" ∉ T.cols)
    ∧ (∀ (patents : List Rec) (tables : List (String × DataFrame)) (T : DataFrame),
      query_to_dfs_transform patents = .ok tables →
      List.lookup "assignees" tables = some T →
      "assignee_key_id" ∉ T.cols)
    ∧ (∀ (df sel norm joined dropped : DataFrame),
      df.select ["patent_number", "inventors"] = .ok sel →
      json_normalize ((sel.explode "inventors").rows.map (fun r => cell r "inventors"))
        = .ok norm →
      (sel.explode "inventors").join norm = .ok joined →
      joined.drop "inventors" = .ok dropped →
      "inventor_key_id" ∉ dropped.cols →
      processExplodeCat df "inventors" = .error (.keyError "inventor_key_id"))
    ∧ (∀ (df sel norm joined dropped : DataFrame),
      df.select ["patent_number", "assignees"] = .ok sel →
      json_normalize ((sel.explode "assignees").rows.map (fun r => cell r "assignees"))
        = .ok norm →
      (sel.explode "assignees").join norm = .ok joined →
      joined.drop "assignees" = .ok dropped →
      "assignee_key_id" ∉ dropped.cols →
      processExplodeCat df "assignees" = .error (.keyError "assignee_key_id")) := by
  refine ⟨?_, ?_, ?_, ?_⟩
  · intro patents tables T hok hl
    exact transform_table_key_removed (Or.inl rfl) hok hl
  · intro patents tables T hok hl
    exact transform_table_key_removed (Or.inr rfl) hok hl
  · intro df sel norm joined dropped hsel hnorm hjoin hdrop hnokey
    exact processExplodeCat_key_absent_error (Or.inl rfl) hsel hnorm hjoin hdrop hnokey
  · intro df sel norm joined dropped hsel hnorm hjoin hdrop hnokey
    exact processExplodeCat_key_absent_error (Or.inr rfl) hsel hnorm hjoin hdrop hnokey

def patsNoKey : List Rec :=
  [[("patent_number", .str "1"), ("inventors", .arr [.obj [("inventor_id", .str "i")]])]]

def dfNoKey : DataFrame := pdDataFrame patsNoKey

def selNoKey : DataFrame :=
  match dfNoKey.select ["patent_number", "inventors"] with
  | .ok d => d
  | .error _ => { cols := [], rows := [] }

def normNoKey : DataFrame :=
  match json_normalize ((selNoKey.explode "inventors").rows.map
      (fun r => cell r "inventors")) with
  | .ok d => d
  | .error _ => { cols := [], rows := [] }

def joinedNoKey : DataFrame :=
  match (selNoKey.explode "inventors").join normNoKey with
  | .ok d => d
  | .error _ => { cols := [], rows := [] }

def droppedNoKey : DataFrame :=
  match joinedNoKey.drop "inventors" with
  | .ok d => d
  | .error _ => { cols := [], rows := [] }

def asg1 : JsonVal := .obj [("assignee_key_id", .str "a1"), ("assignee_id", .str "A")]

def patsAsg : List Rec := [[("patent_number", .str "9"), ("assignees", .arr [asg1])]]

/-- The tables the transform produces on `patsAsg` (it succeeds there). -/
def tabsAsg : List (String × DataFrame) :=
  match query_to_dfs_transform patsAsg with
  | .ok ts => ts
  | .error _ => []

def assigneesT : DataFrame := (List.lookup "assignees" tabsAsg).getD { cols := [], rows := [] }

def patsAsgNoKey : List Rec :=
  [[("patent_number", .str "9"), ("assignees", .arr [.obj [("assignee_id", .str "A")]])]]

def dfAsgNoKey : DataFrame := pdDataFrame patsAsgNoKey

def selAsgNoKey : DataFrame :=
  match dfAsgNoKey.select ["patent_number", "assignees"] with
  | .ok d => d
  | .error _ => { cols := [], rows := [] }

def normAsgNoKey : DataFrame :=
  match json_normalize ((selAsgNoKey.explode "assignees").rows.map
      (fun r => cell r "assignees")) with
  | .ok d => d
  | .error _ => { cols := [], rows := [] }

def joinedAsgNoKey : DataFrame :=
  match (selAsgNoKey.explode "assignees").join normAsgNoKey with
  | .ok d => d
  | .error _ => { cols := [], rows := [] }

def droppedAsgNoKey : DataFrame :=
  match joinedAsgNoKey.drop "assignees" with
  | .ok d => d
  | .error _ => { cols := [], rows := [] }

theorem key_id_columns_dropped_witness :
    "inventor_key_id" ∉ inventors3.cols ∧
    "assignee_key_id" ∉ assigneesT.cols ∧
    processExplodeCat dfNoKey "inventors" = .error (.keyError "inventor_key_id") ∧
    processExplodeCat dfAsgNoKey "assignees" = .error (.keyError "assignee_key_id") :=
  ⟨key_id_columns_dropped.1 pats3 tabs3 inventors3 rfl rfl,
   key_id_columns_dropped.2.1 patsAsg tabsAsg assigneesT rfl rfl,
   key_id_columns_dropped.2.2.1 dfNoKey selNoKey normNoKey joinedNoKey droppedNoKey
     rfl rfl rfl rfl (by decide),
   key_id_columns_dropped.2.2.2 dfAsgNoKey selAsgNoKey normAsgNoKey joinedAsgNoKey
     droppedAsgNoKey rfl rfl rfl rfl (by decide)⟩
